import Mathlib

/-!
# Verification of `scripts/check_layered_imports.py`

A shallow embedding of the layered-import checker.  The script scans a
directory tree of Python files, classifies each file and each imported
module path into a layer, checks every import against a configurable
forbidden source-layer → destination-layer mapping, and reports the
violations sorted by (file path, line, column).

Modelling choices, all taken from the source:

* Python strings are sequences of code points; they are modelled as
  `String` and every operation the script uses (`strip`, `split`,
  `startswith`, `removeprefix`, slicing off the first dotted segment) is
  defined structurally on `String.data : List Char`.
* The file-discovery step (`_iter_python_files`) is an external
  collaborator: the embedding takes the discovered files as a list of
  `SourceFile` values carrying the data the script extracts from each
  file — its path string, its path components relative to the root, and
  the result of `ast.parse` on its text.
* `ast.parse` / `ast.walk` are Python-standard-library collaborators: a
  successfully parsed tree is modelled as the sequence of its
  `Import` / `ImportFrom` statements in the (deterministic) `ast.walk`
  order; every other node kind is skipped by the `isinstance` checks in
  `_iter_imports` and so contributes nothing.  An `Import` node carries
  the list of its alias names (`alias.name` for each name in
  `node.names`); an `ImportFrom` node carries its optional `module`.
* `dict[str, set[str]]` is modelled as an association list
  `List (String × List String)`; `dict.get` is `List.lookup`, and set
  union is list concatenation (membership-equivalent).
* Python's `sorted` with a key function is a stable sort; it is modelled
  by `List.insertionSort` over the non-strict key order, which is stable
  (equal-key elements keep their input order).  The development below
  proves the three characterising properties (permutation, sortedness,
  key-class stability) and that they determine the output uniquely, so
  any stable sort gives the same list.
* `raise SystemExit(message)` with a string argument makes CPython print
  the message and terminate with status 1; an uncaught exception (the
  `ValueError` from `_parse_forbid_entries`) also terminates the
  interpreter with status 1.  Those two statuses are recorded in
  `systemExitMessageStatus` and `uncaughtExceptionStatus`.
-/

deriving instance DecidableEq for Except

/-! ## Python string primitives (on `String.data`) -/

/-- Python `str.strip()`: drop whitespace from both ends. -/
def pyStrip (s : String) : String :=
  ⟨((s.data.dropWhile Char.isWhitespace).reverse.dropWhile Char.isWhitespace).reverse⟩

/-- Python `str.split(sep)` for a one-character separator, on char lists:
`"".split(sep) = [""]`, and separators delimit (possibly empty) groups. -/
def splitCharsOn (sep : Char) : List Char → List (List Char)
  | [] => [[]]
  | ch :: rest =>
    match splitCharsOn sep rest with
    | [] => [[]]
    | g :: gs => if ch = sep then [] :: g :: gs else (ch :: g) :: gs

/-- Python `str.split(sep)` for a one-character separator. -/
def pySplit (sep : Char) (s : String) : List String :=
  (splitCharsOn sep s.data).map (fun g => ⟨g⟩)

/-- Python `str.startswith(pre)`. -/
def pyStartsWith (s pre : String) : Bool :=
  pre.data.isPrefixOf s.data

/-- Python `s.removeprefix(pre)` in the only way the script uses it: under a
`startswith` guard, so it just drops `pre.length` leading characters. -/
def dropLen (s pre : String) : String := ⟨s.data.drop pre.data.length⟩

/-- Python `s.split(".", 1)[0]`: the text before the first dot (the whole
string when it has no dot). -/
def firstSegment (s : String) : String := ⟨s.data.takeWhile (fun ch => ch ≠ '.')⟩

/-- Python `entry.split(":", 1)[0]`: the text before the first colon. -/
def beforeColon (entry : String) : String := ⟨entry.data.takeWhile (fun ch => ch ≠ ':')⟩

/-- Python `entry.split(":", 1)[1]` when a colon is present: the text after
the first colon. -/
def afterColon (entry : String) : String := ⟨(entry.data.dropWhile (fun ch => ch ≠ ':')).tail⟩

/-- Python `x or d` for an optional non-negative integer `x`: `None` and `0`
are both falsy and give `d`. -/
def pyOrNat (x : Option Nat) (d : Nat) : Nat :=
  match x with
  | none => d
  | some n => if n = 0 then d else n

/-! ## Data model -/

/-- `ImportViolation` (the frozen dataclass), with `file_path` as the string
`str(v.file_path)` used for sorting and rendering. -/
structure ImportViolation where
  file_path : String
  file_layer : String
  imported_module : String
  imported_layer : String
  lineno : Nat
  col_offset : Nat
  reason : String
deriving DecidableEq

/-- One `Import`/`ImportFrom` statement of a parsed tree, in `ast.walk`
order.  `imp names l c` is `import n1 as a1, n2, ...` carrying the
`alias.name` of every alias; `impFrom m l c` is `from M import ...`, whose
`module` is `none` for a purely relative `from . import x`. -/
inductive ImportStmt where
  | imp (names : List String) (lineno : Nat) (col : Nat)
  | impFrom (module : Option String) (lineno : Nat) (col : Nat)
deriving DecidableEq

/-- The data of a `SyntaxError` raised by `ast.parse`: optional position
(`exc.lineno`, `exc.offset`) and the message `exc.msg`. -/
structure ParseError where
  lineno : Option Nat
  offset : Option Nat
  msg : String
deriving DecidableEq

/-- Result of `ast.parse` on a file's text. -/
inductive ParseResult where
  | failed (err : ParseError)
  | tree (stmts : List ImportStmt)
deriving DecidableEq

/-- A discovered file, as the script observes it: `path` is
`str(file_path)`, `relParts` is `file_path.relative_to(root_dir).parts`,
and `parsed` is the result of `ast.parse` on its text.  A file yielded by
`root_dir.rglob` always has a non-empty `relParts`. -/
structure SourceFile where
  path : String
  relParts : List String
  parsed : ParseResult
deriving DecidableEq

/-! ## `_parse_csv` and `_parse_forbid_entries` -/

/-- `_parse_csv`: split on commas, strip each part, keep the non-empty ones. -/
def parse_csv (value : String) : List String :=
  (pySplit ',' value).filterMap (fun part =>
    if pyStrip part = "" then none else some (pyStrip part))

/-- `forbid.setdefault(src, set()).update(destinations)` on the association
list model: extend an existing key's destination list, else append a new
key.  List concatenation models set union (membership-equivalent). -/
def addForbid : List (String × List String) → String → List String →
    List (String × List String)
  | [], src, dsts => [(src, dsts)]
  | (k, v) :: rest, src, dsts =>
    if k = src then (k, v ++ dsts) :: rest
    else (k, v) :: addForbid rest src dsts

/-- The loop body of `_parse_forbid_entries`, with the accumulated mapping
explicit; a raised `ValueError` is the `Except.error` carrying its message
(the Python text quotes `from:to1,to2`). -/
def parse_forbid_entries_aux (forbid : List (String × List String)) :
    List String → Except String (List (String × List String))
  | [] => .ok forbid
  | entry :: rest =>
    if entry.data.contains ':' then
      if pyStrip (beforeColon entry) = "" then
        .error ("Invalid --forbid entry (empty source layer): " ++ entry)
      else if parse_csv (afterColon entry) = [] then
        .error ("Invalid --forbid entry (empty destinations): " ++ entry)
      else
        parse_forbid_entries_aux
          (addForbid forbid (pyStrip (beforeColon entry))
            (parse_csv (afterColon entry))) rest
    else
      .error ("Invalid --forbid entry (expected from:to1,to2): " ++ entry)

/-- `_parse_forbid_entries`. -/
def parse_forbid_entries (entries : List String) :
    Except String (List (String × List String)) :=
  parse_forbid_entries_aux [] entries

/-! ## Layer classification -/

/-- `_file_layer`: relative path with exactly one component → `"root"`;
else the first component if it is a declared layer, else `"other"`.
(`relParts = []` cannot occur for a discovered file; the `headD` default is
never consulted by the claims, which supply a non-empty `relParts`.) -/
def file_layer (relParts : List String) (layer_names : List String) : String :=
  if relParts.length = 1 then "root"
  else
    let top := relParts.headD ""
    if top ∈ layer_names then top else "other"

/-- `_imported_layer`. -/
def imported_layer (imported_module : String) (package_name : String)
    (layer_names : List String) : String :=
  if imported_module = "" then "other"
  else if imported_module = package_name then "root"
  else if pyStartsWith imported_module (package_name ++ ".") then
    let first := firstSegment (dropLen imported_module (package_name ++ "."))
    if first ∈ layer_names then first else "root"
  else "other"

/-! ## `_iter_imports` -/

/-- What one walked node yields in `_iter_imports`: one `(name, lineno,
col_offset)` triple per alias of an `Import`, one triple keyed on the
module for an `ImportFrom` with a module, nothing for a module-less
`ImportFrom`. -/
def importRefsOfStmt : ImportStmt → List (String × Nat × Nat)
  | .imp names lineno col => names.map (fun n => (n, lineno, col))
  | .impFrom none _ _ => []
  | .impFrom (some m) lineno col => [(m, lineno, col)]

/-- `_iter_imports`: concatenate the yields of the walked statements. -/
def iter_imports (stmts : List ImportStmt) : List (String × Nat × Nat) :=
  (stmts.map importRefsOfStmt).flatten

/-! ## `_violations_for_file` -/

/-- The per-import body of the loop in `_violations_for_file`: skip the
reserved import layers, look up the file layer's forbidden set (`dict.get`), skip
when it is absent or empty (`if not forbidden_targets`), and otherwise
report when the import layer is a member. -/
def ruleViolation? (path : String) (layer : String)
    (forbid : List (String × List String)) (package_name : String)
    (layer_names : List String) (ref : String × Nat × Nat) :
    Option ImportViolation :=
  match ref with
  | (m, l, c) =>
    if imported_layer m package_name layer_names = "root" ∨
        imported_layer m package_name layer_names = "other" then none
    else
      match forbid.lookup layer with
      | none => none
      | some targets =>
        if targets = [] then none
        else if imported_layer m package_name layer_names ∈ targets then
          some { file_path := path, file_layer := layer, imported_module := m,
                 imported_layer := imported_layer m package_name layer_names,
                 lineno := l, col_offset := c,
                 reason := "Forbidden import direction by configured layer rules." }
        else none

/-- `_violations_for_file`. -/
def violations_for_file (package_name : String) (layer_names : List String)
    (forbid : List (String × List String)) (f : SourceFile) :
    List ImportViolation :=
  if file_layer f.relParts layer_names = "root" ∨
      file_layer f.relParts layer_names = "other" then []
  else
    match f.parsed with
    | .failed e =>
      [{ file_path := f.path, file_layer := file_layer f.relParts layer_names,
         imported_module := "(parse error)", imported_layer := "other",
         lineno := pyOrNat e.lineno 1, col_offset := pyOrNat e.offset 0,
         reason := "SyntaxError: " ++ e.msg }]
    | .tree stmts =>
      (iter_imports stmts).filterMap
        (ruleViolation? f.path (file_layer f.relParts layer_names) forbid
          package_name layer_names)

/-- The collection loop of `main`: extend `all_violations` with each file's
violations, in discovery order. -/
def scan (package_name : String) (layer_names : List String)
    (forbid : List (String × List String)) (files : List SourceFile) :
    List ImportViolation :=
  (files.map (violations_for_file package_name layer_names forbid)).flatten

/-! ## Reporting -/

/-- Python string `<`: lexicographic comparison of the code-point
sequences. -/
def strLtb : List Char → List Char → Bool
  | [], [] => false
  | [], _ :: _ => true
  | _ :: _, [] => false
  | c :: cs, d :: ds =>
    if c.toNat < d.toNat then true
    else if d.toNat < c.toNat then false
    else strLtb cs ds

/-- `a < b` on Python strings. -/
def strLt (a b : String) : Prop := strLtb a.data b.data = true

instance (a b : String) : Decidable (strLt a b) :=
  inferInstanceAs (Decidable (_ = _))

/-- The sort key of `main`: `(str(v.file_path), v.lineno, v.col_offset)`. -/
def vKey (v : ImportViolation) : String × Nat × Nat :=
  (v.file_path, v.lineno, v.col_offset)

/-- Strict lexicographic order on sort keys (Python tuple `<`). -/
def keyLt (a b : String × Nat × Nat) : Prop :=
  strLt a.1 b.1 ∨ (a.1 = b.1 ∧ (a.2.1 < b.2.1 ∨ (a.2.1 = b.2.1 ∧ a.2.2 < b.2.2)))

/-- Non-strict lexicographic order on sort keys (Python tuple `<=`). -/
def keyLe (a b : String × Nat × Nat) : Prop :=
  keyLt a b ∨ a = b

instance (a b : String × Nat × Nat) : Decidable (keyLt a b) :=
  inferInstanceAs (Decidable (_ ∨ _))

instance (a b : String × Nat × Nat) : Decidable (keyLe a b) :=
  inferInstanceAs (Decidable (_ ∨ _))

/-- The violation order used by `sorted(..., key=...)`. -/
def violOrd (a b : ImportViolation) : Prop := keyLe (vKey a) (vKey b)

instance (a b : ImportViolation) : Decidable (violOrd a b) :=
  inferInstanceAs (Decidable (keyLe (vKey a) (vKey b)))

/-- Python's `sorted(all_violations, key=lambda v: (str(v.file_path),
v.lineno, v.col_offset))`: a stable sort by the non-strict key order,
modelled by stable insertion sort. -/
def sortViolations (vs : List ImportViolation) : List ImportViolation :=
  vs.insertionSort violOrd

/-- `_format_violation` (column rendered 1-based). -/
def format_violation (v : ImportViolation) : String :=
  v.file_path ++ ":" ++ toString v.lineno ++ ":" ++ toString (v.col_offset + 1) ++
    " [" ++ v.file_layer ++ " -> " ++ v.imported_layer ++ "] " ++
    v.imported_module ++ " :: " ++ v.reason

/-! ## `main` -/

/-- CPython semantics of `raise SystemExit(message)` with a string argument:
the message is printed to stderr and the process exits with status 1. -/
def systemExitMessageStatus : Nat := 1

/-- CPython semantics of an exception (here the `ValueError` from
`_parse_forbid_entries`) propagating out of the program: a traceback is
printed and the process exits with status 1. -/
def uncaughtExceptionStatus : Nat := 1

/-- The parsed command-line arguments of `main`, plus the two facts about
the root path the script queries (`exists() and is_dir()`, and
`root_dir.name`). -/
structure Args where
  root : String
  rootExistsAndIsDir : Bool
  rootName : String
  packageNameArg : String
  layersArg : String
  forbidArgs : List String
deriving DecidableEq

/-- argparse default for `--layers`. -/
def defaultLayersArg : String := "domain,dataset,adaptor,service"

/-- The default forbidden mapping installed when no `--forbid` entry was
given. -/
def defaultForbid : List (String × List String) :=
  [("domain", ["dataset", "adaptor", "service"]),
   ("dataset", ["adaptor", "service"]),
   ("adaptor", ["dataset", "service"])]

/-- `if not forbid: forbid = {...}` — the mapping actually used by the scan. -/
def effectiveForbid (fb : List (String × List String)) :
    List (String × List String) :=
  if fb = [] then defaultForbid else fb

/-- How a run of `main` ends: a fatal configuration error before any file is
scanned (the process status and the message), or a completed scan (the
process status and the printed lines). -/
inductive RunOutcome where
  | configError (status : Nat) (message : String)
  | finished (status : Nat) (output : List String)
deriving DecidableEq

/-- `main`'s local `package_name`: `args.package_name.strip() or
root_dir.name` (the empty stripped string is falsy). -/
def pyPackageName (args : Args) : String :=
  if pyStrip args.packageNameArg = "" then args.rootName
  else pyStrip args.packageNameArg

/-- The report-and-exit tail of `main`: the success line and status 0 on an
empty violation collection, else the header, one rendered line per sorted
violation, and status 1. -/
def reportPhase (vs : List ImportViolation) : RunOutcome :=
  if vs = [] then .finished 0 ["OK: no layered-import violations found."]
  else
    .finished 1 ("Layered-import violations:" ::
      (sortViolations vs).map (fun v => "- " ++ format_violation v))

/-- `main`, over the externally discovered `files` (the sequence produced by
`_iter_python_files`, already honoring `--include-tests` and the
`__pycache__` exclusion).  `main`'s locals are the defs above:
`package_name = pyPackageName args`, `layer_names = parse_csv
args.layersArg`, `forbid = effectiveForbid fb`. -/
def runMain (args : Args) (files : List SourceFile) : RunOutcome :=
  if args.rootExistsAndIsDir = false then
    .configError systemExitMessageStatus
      ("--root must be an existing directory: " ++ args.root)
  else
    match parse_forbid_entries args.forbidArgs with
    | .error msg => .configError uncaughtExceptionStatus msg
    | .ok fb =>
      reportPhase
        (scan (pyPackageName args) (parse_csv args.layersArg)
          (effectiveForbid fb) files)

/-! ## Order lemmas for the sort key -/

theorem stringDataInj {a b : String} (h : a.data = b.data) : a = b :=
  congrArg String.mk h

theorem strLtb_irrefl : ∀ l : List Char, strLtb l l = false
  | [] => rfl
  | c :: cs => by simp [strLtb, strLtb_irrefl cs]

theorem strLtb_nil_right : ∀ l : List Char, strLtb l [] = false
  | [] => rfl
  | _ :: _ => rfl

theorem strLtb_asymm : ∀ a b : List Char, strLtb a b = true → strLtb b a = false
  | [], [], h => by simp [strLtb] at h
  | [], _ :: _, _ => rfl
  | _ :: _, [], h => by simp [strLtb] at h
  | c :: cs, d :: ds, h => by
    simp only [strLtb] at h ⊢
    rcases Nat.lt_trichotomy c.toNat d.toNat with hlt | heq | hgt
    · simp [hlt, Nat.lt_asymm hlt]
    · simp [heq, Nat.lt_irrefl] at h ⊢
      exact strLtb_asymm cs ds h
    · simp [hgt, Nat.lt_asymm hgt] at h

theorem strLtb_trans : ∀ a b c : List Char,
    strLtb a b = true → strLtb b c = true → strLtb a c = true
  | [], _, _ :: _, _, _ => rfl
  | [], _, [], _, h2 => absurd h2 (by simp [strLtb_nil_right])
  | _ :: _, _, [], _, h2 => absurd h2 (by simp [strLtb_nil_right])
  | _ :: _, [], _ :: _, h1, _ => absurd h1 (by simp [strLtb_nil_right])
  | a :: as, b :: bs, c :: cs, h1, h2 => by
    simp only [strLtb] at h1 h2 ⊢
    by_cases hab : a.toNat < b.toNat
    · by_cases hbc : b.toNat < c.toNat
      · simp [Nat.lt_trans hab hbc]
      · simp only [if_neg hbc] at h2
        by_cases hcb : c.toNat < b.toNat
        · simp [hcb] at h2
        · have hac : a.toNat < c.toNat := by omega
          simp [hac]
    · simp only [if_neg hab] at h1
      by_cases hba : b.toNat < a.toNat
      · simp [hba] at h1
      · simp only [if_neg hba] at h1
        by_cases hbc : b.toNat < c.toNat
        · have hac : a.toNat < c.toNat := by omega
          simp [hac]
        · simp only [if_neg hbc] at h2
          by_cases hcb : c.toNat < b.toNat
          · simp [hcb] at h2
          · simp only [if_neg hcb] at h2
            have hac : ¬ a.toNat < c.toNat := by omega
            have hca : ¬ c.toNat < a.toNat := by omega
            simp only [if_neg hac, if_neg hca]
            exact strLtb_trans as bs cs h1 h2

theorem strLtb_connex : ∀ a b : List Char,
    strLtb a b = false → strLtb b a = false → a = b
  | [], [], _, _ => rfl
  | [], _ :: _, h1, _ => by simp [strLtb] at h1
  | _ :: _, [], _, h2 => by simp [strLtb] at h2
  | a :: as, b :: bs, h1, h2 => by
    simp only [strLtb] at h1 h2
    rcases Nat.lt_trichotomy a.toNat b.toNat with hab | hab | hab
    · simp [hab] at h1
    · have ha : a = b := Char.ext (UInt32.ext hab)
      subst ha
      simp [Nat.lt_irrefl] at h1 h2
      rw [strLtb_connex as bs h1 h2]
    · simp [hab] at h2

theorem strLt_irrefl (a : String) : ¬ strLt a a := by
  unfold strLt
  simp [strLtb_irrefl]

theorem strLt_asymm {a b : String} (h : strLt a b) : ¬ strLt b a := by
  unfold strLt at h ⊢
  simp [strLtb_asymm a.data b.data h]

theorem strLt_trans {a b c : String} (h1 : strLt a b) (h2 : strLt b c) : strLt a c :=
  strLtb_trans a.data b.data c.data h1 h2

theorem strLt_connex {a b : String} (h1 : ¬ strLt a b) (h2 : ¬ strLt b a) : a = b := by
  unfold strLt at h1 h2
  exact stringDataInj (strLtb_connex a.data b.data
    (Bool.not_eq_true _ ▸ h1) (Bool.not_eq_true _ ▸ h2))

theorem keyLt_irrefl (a : String × Nat × Nat) : ¬ keyLt a a := by
  unfold keyLt
  intro h
  rcases h with h | ⟨_, h | ⟨_, h⟩⟩
  · exact strLt_irrefl a.1 h
  · omega
  · omega

theorem keyLt_trans {a b c : String × Nat × Nat}
    (h1 : keyLt a b) (h2 : keyLt b c) : keyLt a c := by
  unfold keyLt at h1 h2 ⊢
  rcases h1 with h1 | ⟨e1, h1⟩
  · rcases h2 with h2 | ⟨e2, h2⟩
    · exact .inl (strLt_trans h1 h2)
    · exact .inl (e2 ▸ h1)
  · rcases h2 with h2 | ⟨e2, h2⟩
    · exact .inl (e1 ▸ h2)
    · refine .inr ⟨e1.trans e2, ?_⟩
      rcases h1 with h1 | ⟨f1, h1⟩ <;> rcases h2 with h2 | ⟨f2, h2⟩
      · exact .inl (Nat.lt_trans h1 h2)
      · exact .inl (f2 ▸ h1)
      · exact .inl (f1 ▸ h2)
      · exact .inr ⟨f1.trans f2, Nat.lt_trans h1 h2⟩

theorem keyLt_or_eq_of_not_keyLt {a b : String × Nat × Nat}
    (h : ¬ keyLt a b) : keyLt b a ∨ a = b := by
  unfold keyLt at h ⊢
  by_cases hs : strLt b.1 a.1
  · exact .inl (.inl hs)
  · by_cases hs2 : strLt a.1 b.1
    · exact absurd (.inl hs2) h
    · have he : a.1 = b.1 := strLt_connex hs2 hs
      by_cases hn1 : a.2.1 < b.2.1
      · exact absurd (.inr ⟨he, .inl hn1⟩) h
      · by_cases hn1g : b.2.1 < a.2.1
        · exact .inl (.inr ⟨he.symm, .inl hn1g⟩)
        · have he1 : a.2.1 = b.2.1 := by omega
          by_cases hn2 : a.2.2 < b.2.2
          · exact absurd (.inr ⟨he, .inr ⟨he1, hn2⟩⟩) h
          · by_cases hn2g : b.2.2 < a.2.2
            · exact .inl (.inr ⟨he.symm, .inr ⟨he1.symm, hn2g⟩⟩)
            · have he2 : a.2.2 = b.2.2 := by omega
              right
              rcases a with ⟨a1, a2, a3⟩
              rcases b with ⟨b1, b2, b3⟩
              simp_all

theorem keyLe_refl (a : String × Nat × Nat) : keyLe a a := .inr rfl

theorem keyLe_trans {a b c : String × Nat × Nat}
    (h1 : keyLe a b) (h2 : keyLe b c) : keyLe a c := by
  rcases h1 with h1 | rfl
  · rcases h2 with h2 | rfl
    · exact .inl (keyLt_trans h1 h2)
    · exact .inl h1
  · exact h2

theorem keyLe_total (a b : String × Nat × Nat) : keyLe a b ∨ keyLe b a := by
  by_cases h : keyLt a b
  · exact .inl (.inl h)
  · rcases keyLt_or_eq_of_not_keyLt h with h2 | h2
    · exact .inr (.inl h2)
    · exact .inl (.inr h2)

theorem keyLe_antisymm {a b : String × Nat × Nat}
    (h1 : keyLe a b) (h2 : keyLe b a) : a = b := by
  rcases h1 with h1 | rfl
  · rcases h2 with h2 | rfl
    · exact absurd (keyLt_trans h1 h2) (keyLt_irrefl a)
    · rfl
  · rfl

theorem keyLe_of_not_keyLt {a b : String × Nat × Nat} (h : ¬ keyLt a b) : keyLe b a := by
  rcases keyLt_or_eq_of_not_keyLt h with h2 | h2
  · exact .inl h2
  · exact .inr h2.symm

instance : IsTrans ImportViolation violOrd :=
  ⟨fun _ _ _ h1 h2 => keyLe_trans h1 h2⟩

instance : IsTotal ImportViolation violOrd :=
  ⟨fun a b => keyLe_total (vKey a) (vKey b)⟩

/-! ## Stable-sort characterisation

Python's `sorted` is stable.  `sortViolations` is a permutation of its
input (`sortViolations_perm`), is sorted by the key order
(`sortViolations_sorted`), and preserves the input's relative order inside
every key class (`sortViolations_keyFilter`).  Those three properties
determine the output uniquely (`sorted_eq_of_keyFilter_eq`), so the model
agrees with any stable sort. -/

theorem sortViolations_perm (vs : List ImportViolation) :
    (sortViolations vs).Perm vs :=
  List.perm_insertionSort violOrd vs

theorem sortViolations_sorted (vs : List ImportViolation) :
    (sortViolations vs).Sorted violOrd :=
  List.sorted_insertionSort violOrd vs

/-- The sub-sequence of violations whose sort key is exactly `κ`. -/
def keyFilter (κ : String × Nat × Nat) (vs : List ImportViolation) :
    List ImportViolation :=
  vs.filter (fun v => decide (vKey v = κ))

theorem keyFilter_cons (κ : String × Nat × Nat) (v : ImportViolation)
    (vs : List ImportViolation) :
    keyFilter κ (v :: vs) =
      if vKey v = κ then v :: keyFilter κ vs else keyFilter κ vs := by
  unfold keyFilter
  by_cases h : vKey v = κ <;> simp [List.filter_cons, h]

theorem keyFilter_orderedInsert (κ : String × Nat × Nat) (v : ImportViolation) :
    ∀ ws : List ImportViolation,
    keyFilter κ (List.orderedInsert violOrd v ws) =
      if vKey v = κ then v :: keyFilter κ ws else keyFilter κ ws
  | [] => by simp [List.orderedInsert, keyFilter_cons]
  | w :: ws => by
    simp only [List.orderedInsert]
    by_cases h : violOrd v w
    · simp [if_pos h, keyFilter_cons]
    · have hwk : vKey v = κ → vKey w ≠ κ := by
        intro hv hw
        exact h (.inr (hv.trans hw.symm))
      rw [if_neg h, keyFilter_cons, keyFilter_orderedInsert κ v ws, keyFilter_cons]
      by_cases hv : vKey v = κ
      · simp only [if_pos hv, if_neg (hwk hv)]
      · simp only [if_neg hv]

theorem sortViolations_keyFilter (κ : String × Nat × Nat) :
    ∀ vs : List ImportViolation, keyFilter κ (sortViolations vs) = keyFilter κ vs
  | [] => rfl
  | v :: vs => by
    have h1 : sortViolations (v :: vs) =
        List.orderedInsert violOrd v (sortViolations vs) := rfl
    rw [h1, keyFilter_orderedInsert, sortViolations_keyFilter κ vs, keyFilter_cons]

theorem keyFilter_ne_nil_self (κ : String × Nat × Nat) (v : ImportViolation)
    (vs : List ImportViolation) (hv : v ∈ vs) (hκ : vKey v = κ) :
    keyFilter κ vs ≠ [] := by
  unfold keyFilter
  intro h
  have : v ∈ vs.filter (fun v => decide (vKey v = κ)) :=
    List.mem_filter.mpr ⟨hv, by simp [hκ]⟩
  rw [h] at this
  exact absurd this (List.not_mem_nil v)

theorem sorted_eq_of_keyFilter_eq :
    ∀ l1 l2 : List ImportViolation, l1.Sorted violOrd → l2.Sorted violOrd →
      (∀ κ, keyFilter κ l1 = keyFilter κ l2) → l1 = l2
  | [], [], _, _, _ => rfl
  | [], b :: t2, _, _, hf => by
    have h := (hf (vKey b)).symm
    rw [keyFilter_cons, if_pos rfl] at h
    simp [keyFilter] at h
  | a :: t1, [], _, _, hf => by
    have h := hf (vKey a)
    rw [keyFilter_cons, if_pos rfl] at h
    simp [keyFilter] at h
  | a :: t1, b :: t2, h1, h2, hf => by
    have hmem_a : a ∈ b :: t2 := by
      have h := hf (vKey a)
      rw [keyFilter_cons, if_pos rfl] at h
      have : a ∈ keyFilter (vKey a) (b :: t2) := by rw [← h]; exact List.mem_cons_self a _
      exact (List.mem_filter.mp this).1
    have hmem_b : b ∈ a :: t1 := by
      have h := (hf (vKey b)).symm
      rw [keyFilter_cons, if_pos rfl] at h
      have : b ∈ keyFilter (vKey b) (a :: t1) := by rw [← h]; exact List.mem_cons_self b _
      exact (List.mem_filter.mp this).1
    have hba : keyLe (vKey b) (vKey a) := by
      rcases List.mem_cons.mp hmem_a with rfl | hmem
      · exact keyLe_refl _
      · exact (List.sorted_cons.mp h2).1 a hmem
    have hab : keyLe (vKey a) (vKey b) := by
      rcases List.mem_cons.mp hmem_b with rfl | hmem
      · exact keyLe_refl _
      · exact (List.sorted_cons.mp h1).1 b hmem
    have hkey : vKey a = vKey b := keyLe_antisymm hab hba
    have hhead := hf (vKey a)
    rw [keyFilter_cons, if_pos rfl, keyFilter_cons, if_pos hkey.symm] at hhead
    have hae : a = b := (List.cons.injEq _ _ _ _ ▸ hhead).1
    have htail : t1 = t2 := by
      apply sorted_eq_of_keyFilter_eq t1 t2 (List.sorted_cons.mp h1).2
        (List.sorted_cons.mp h2).2
      intro κ
      by_cases hκ : vKey a = κ
      · have h := hf κ
        rw [keyFilter_cons, if_pos hκ, keyFilter_cons, if_pos (hkey ▸ hκ)] at h
        exact (List.cons.injEq _ _ _ _ ▸ h).2
      · have h := hf κ
        rw [keyFilter_cons, if_neg hκ, keyFilter_cons, if_neg (hkey ▸ hκ)] at h
        exact h
    rw [hae, htail]

/-! ## Violations carry their file's path; key classes are per-file -/

theorem ruleViolation?_path {path layer : String}
    {forbid : List (String × List String)} {package_name : String}
    {layer_names : List String} {ref : String × Nat × Nat} {v : ImportViolation}
    (h : ruleViolation? path layer forbid package_name layer_names ref = some v) :
    v.file_path = path := by
  obtain ⟨m, l, c⟩ := ref
  simp only [ruleViolation?] at h
  by_cases h1 : imported_layer m package_name layer_names = "root" ∨
      imported_layer m package_name layer_names = "other"
  · rw [if_pos h1] at h
    exact absurd h (by simp)
  · rw [if_neg h1] at h
    split at h
    · exact absurd h (by simp)
    · split at h
      · exact absurd h (by simp)
      · split at h
        · rw [← Option.some.inj h]
        · exact absurd h (by simp)

theorem violations_for_file_path (package_name : String)
    (layer_names : List String) (forbid : List (String × List String))
    (f : SourceFile) :
    ∀ v ∈ violations_for_file package_name layer_names forbid f,
      v.file_path = f.path := by
  intro v hv
  unfold violations_for_file at hv
  by_cases h1 : file_layer f.relParts layer_names = "root" ∨
      file_layer f.relParts layer_names = "other"
  · rw [if_pos h1] at hv
    exact absurd hv (List.not_mem_nil v)
  · rw [if_neg h1] at hv
    cases hp : f.parsed with
    | failed e =>
      rw [hp] at hv
      rw [List.mem_singleton.mp hv]
    | tree stmts =>
      rw [hp] at hv
      obtain ⟨ref, _, heq⟩ := List.mem_filterMap.mp hv
      exact ruleViolation?_path heq

theorem keyFilter_file_path {κ : String × Nat × Nat} {p : String}
    {L : List String} {F : List (String × List String)} {f : SourceFile}
    (h : keyFilter κ (violations_for_file p L F f) ≠ []) : f.path = κ.1 := by
  obtain ⟨v, hv⟩ := List.exists_mem_of_ne_nil _ h
  have hm := List.mem_filter.mp hv
  have hp := violations_for_file_path p L F f v hm.1
  have hk : vKey v = κ := by simpa using hm.2
  rw [← hp, ← hk]
  rfl

theorem keyFilter_flatten (κ : String × Nat × Nat) :
    ∀ ls : List (List ImportViolation),
      keyFilter κ ls.flatten = (ls.map (keyFilter κ)).flatten
  | [] => rfl
  | l :: ls => by
    simp only [List.flatten_cons, List.map_cons]
    rw [← keyFilter_flatten κ ls]
    simp [keyFilter, List.filter_append]

theorem flatten_eq_of_perm_of_comm {α : Type} {l1 l2 : List (List α)}
    (h : l1.Perm l2) :
    (∀ a ∈ l1, ∀ b ∈ l1, a ++ b = b ++ a) → l1.flatten = l2.flatten := by
  induction h with
  | nil => intro _; rfl
  | cons x h ih =>
    intro hc
    simp only [List.flatten_cons]
    rw [ih (fun a ha b hb =>
      hc a (List.mem_cons_of_mem _ ha) b (List.mem_cons_of_mem _ hb))]
  | swap x y t =>
    intro hc
    simp only [List.flatten_cons]
    rw [← List.append_assoc, ← List.append_assoc,
      hc y (by simp) x (by simp)]
  | trans h1 h2 ih1 ih2 =>
    intro hc
    rw [ih1 hc]
    exact ih2 (fun a ha b hb =>
      hc a (h1.mem_iff.mpr ha) b (h1.mem_iff.mpr hb))

theorem scan_keyFilter_perm (p : String) (L : List String)
    (F : List (String × List String)) {files1 files2 : List SourceFile}
    (hperm : files1.Perm files2)
    (hdist : files1.Pairwise fun a b => a.path ≠ b.path)
    (κ : String × Nat × Nat) :
    keyFilter κ (scan p L F files1) = keyFilter κ (scan p L F files2) := by
  unfold scan
  rw [keyFilter_flatten, keyFilter_flatten, List.map_map, List.map_map]
  apply flatten_eq_of_perm_of_comm (hperm.map _)
  intro a ha b hb
  obtain ⟨fa, hfa, rfl⟩ := List.mem_map.mp ha
  obtain ⟨fb, hfb, rfl⟩ := List.mem_map.mp hb
  simp only [Function.comp]
  by_cases hae : keyFilter κ (violations_for_file p L F fa) = []
  · simp [hae]
  · by_cases hbe : keyFilter κ (violations_for_file p L F fb) = []
    · simp [hbe]
    · have hfe : fa = fb := by
        by_contra hne
        exact List.Pairwise.forall (fun x y h => h.symm) hdist hfa hfb hne
          ((keyFilter_file_path hae).trans (keyFilter_file_path hbe).symm)
      rw [hfe]

theorem sortScan_perm (p : String) (L : List String)
    (F : List (String × List String)) {files1 files2 : List SourceFile}
    (hperm : files1.Perm files2)
    (hdist : files1.Pairwise fun a b => a.path ≠ b.path) :
    sortViolations (scan p L F files1) = sortViolations (scan p L F files2) :=
  sorted_eq_of_keyFilter_eq _ _ (sortViolations_sorted _) (sortViolations_sorted _)
    (fun κ => by
      rw [sortViolations_keyFilter, sortViolations_keyFilter]
      exact scan_keyFilter_perm p L F hperm hdist κ)

/-! ## Claims -/

/-- C1: For every scanned file whose file layer A is non-reserved and every
reference to an import whose import layer B is non-reserved, a violation with
reason "Forbidden import direction by configured layer rules." is produced
if and only if the forbidden mapping has an entry for A whose destination
set contains B; if the mapping has no entry for A, or if either layer is
`root` or `other`, no violation is produced for that import.  The last
conjunct grounds the per-import rule check in `_violations_for_file`. -/
theorem C1_rule_engine (p : String) (L : List String)
    (F : List (String × List String)) (path A m : String) (l c : Nat)
    (hA1 : A ≠ "root") (hA2 : A ≠ "other")
    (hB1 : imported_layer m p L ≠ "root")
    (hB2 : imported_layer m p L ≠ "other") :
    ((∃ ts, F.lookup A = some ts ∧ imported_layer m p L ∈ ts) →
        ruleViolation? path A F p L (m, l, c) =
          some { file_path := path, file_layer := A, imported_module := m,
                 imported_layer := imported_layer m p L, lineno := l,
                 col_offset := c,
                 reason := "Forbidden import direction by configured layer rules." })
  ∧ ((¬ ∃ ts, F.lookup A = some ts ∧ imported_layer m p L ∈ ts) →
        ruleViolation? path A F p L (m, l, c) = none)
  ∧ (∀ m2 l2 c2, (imported_layer m2 p L = "root" ∨ imported_layer m2 p L = "other") →
        ruleViolation? path A F p L (m2, l2, c2) = none)
  ∧ (∀ f : SourceFile,
      (file_layer f.relParts L = "root" ∨ file_layer f.relParts L = "other") →
        violations_for_file p L F f = [])
  ∧ (∀ (f : SourceFile) (stmts : List ImportStmt),
      f.parsed = .tree stmts → file_layer f.relParts L = A →
        violations_for_file p L F f =
          (iter_imports stmts).filterMap (ruleViolation? f.path A F p L)) := by
  refine ⟨?_, ?_, ?_, ?_, ?_⟩
  · rintro ⟨ts, hts, hmem⟩
    simp only [ruleViolation?]
    rw [if_neg (not_or.mpr ⟨hB1, hB2⟩)]
    simp only [hts]
    rw [if_neg (List.ne_nil_of_mem hmem), if_pos hmem]
  · intro hno
    simp only [ruleViolation?]
    rw [if_neg (not_or.mpr ⟨hB1, hB2⟩)]
    cases hl : F.lookup A with
    | none => simp [hl]
    | some ts =>
      have hmem : imported_layer m p L ∉ ts := fun hm => hno ⟨ts, hl, hm⟩
      simp only [hl]
      by_cases hts : ts = []
      · rw [if_pos hts]
      · rw [if_neg hts, if_neg hmem]
  · intro m2 l2 c2 h
    simp only [ruleViolation?]
    rw [if_pos h]
  · intro f h
    unfold violations_for_file
    rw [if_pos h]
  · intro f stmts hparse hlayer
    unfold violations_for_file
    rw [hlayer, if_neg (not_or.mpr ⟨hA1, hA2⟩), hparse]

/-- Witness for C1 at a concrete configuration: under the default policy a
`domain` file importing `pkg.adaptor.x` yields exactly the forbidden-edge
violation. -/
theorem C1_rule_engine_witness :
    ruleViolation? "r/domain/a.py" "domain" defaultForbid "pkg"
        ["domain", "dataset", "adaptor", "service"] ("pkg.adaptor.x", 3, 0) =
      some { file_path := "r/domain/a.py", file_layer := "domain",
             imported_module := "pkg.adaptor.x", imported_layer := "adaptor",
             lineno := 3, col_offset := 0,
             reason := "Forbidden import direction by configured layer rules." } := by
  have h := (C1_rule_engine "pkg" ["domain", "dataset", "adaptor", "service"]
    defaultForbid "r/domain/a.py" "domain" "pkg.adaptor.x" 3 0
    (by decide) (by decide) (by decide) (by decide)).1
    ⟨["dataset", "adaptor", "service"], by decide, by decide⟩
  exact h.trans (by decide)

/-- C2: The import-layer classifier maps (reading the overlapping clauses in
the spec's own decision order): an empty module path to `other`; a
(non-empty) path equal to the package name to `root`; a path of the form
`p ++ "." ++ rest` to the first dotted segment of `rest` when that segment
is declared and to `root` otherwise; and every path neither equal to `p`
nor starting with `p ++ "."` to `other`. -/
theorem C2_import_classifier (p : String) (L : List String) :
    imported_layer "" p L = "other"
  ∧ (p ≠ "" → imported_layer p p L = "root")
  ∧ (∀ rest : String,
      imported_layer (p ++ "." ++ rest) p L =
        (if firstSegment rest ∈ L then firstSegment rest else "root"))
  ∧ (∀ m : String, m ≠ p → pyStartsWith m (p ++ ".") = false →
      imported_layer m p L = "other") := by
  refine ⟨by simp [imported_layer], fun hp => by simp [imported_layer, hp], ?_, ?_⟩
  · intro rest
    have hdata : (p ++ "." ++ rest).data = (p ++ ".").data ++ rest.data := rfl
    have hm_ne : (p ++ "." ++ rest) ≠ "" := by
      intro h
      have h2 := congrArg String.data h
      rw [hdata] at h2
      simp [String.data] at h2
    have hm_ne_p : (p ++ "." ++ rest) ≠ p := by
      intro h
      have h2 := congrArg (fun s => s.data.length) h
      simp only [hdata, List.length_append] at h2
      have h3 : (p ++ ".").data = p.data ++ ['.'] := rfl
      rw [h3] at h2
      simp only [List.length_append, List.length_cons, List.length_nil] at h2
      omega
    have hstarts : pyStartsWith (p ++ "." ++ rest) (p ++ ".") = true := by
      unfold pyStartsWith
      rw [hdata]
      exact List.isPrefixOf_iff_prefix.mpr (List.prefix_append _ _)
    have hdrop : dropLen (p ++ "." ++ rest) (p ++ ".") = rest := by
      unfold dropLen
      rw [hdata, List.drop_left]
    unfold imported_layer
    rw [if_neg hm_ne, if_neg hm_ne_p, if_pos hstarts, hdrop]
  · intro m hm_ne_p hns
    by_cases hm : m = ""
    · rw [hm]
      simp [imported_layer]
    · unfold imported_layer
      rw [if_neg hm, if_neg hm_ne_p, if_neg (by simp [hns])]

/-- Witness for C2 at concrete inputs: each clause evaluated for package
`pkg` with declared layer `domain`. -/
theorem C2_import_classifier_witness :
    imported_layer "" "pkg" ["domain"] = "other"
  ∧ imported_layer "pkg" "pkg" ["domain"] = "root"
  ∧ imported_layer "pkg.domain.x" "pkg" ["domain"] = "domain"
  ∧ imported_layer "numpy" "pkg" ["domain"] = "other" := by
  obtain ⟨h1, h2, h3, h4⟩ := C2_import_classifier "pkg" ["domain"]
  refine ⟨h1, h2 (by decide), ?_, h4 "numpy" (by decide) (by decide)⟩
  have h := h3 "domain.x"
  rw [show ("pkg" ++ "." ++ "domain.x" : String) = "pkg.domain.x" from rfl] at h
  rw [h]
  decide

/-- C4: A discovered file in a non-reserved layer whose content fails to
parse yields exactly one violation — imported module set to the sentinel
`"(parse error)"`, imported layer `other`, reason containing the parse
failure message — and no import-level violations; the scan continues over
the remaining files. -/
theorem C4_parse_failure (p : String) (L : List String)
    (F : List (String × List String)) (f : SourceFile) (e : ParseError)
    (h1 : file_layer f.relParts L ≠ "root")
    (h2 : file_layer f.relParts L ≠ "other")
    (hp : f.parsed = .failed e) :
    violations_for_file p L F f =
      [{ file_path := f.path, file_layer := file_layer f.relParts L,
         imported_module := "(parse error)", imported_layer := "other",
         lineno := pyOrNat e.lineno 1, col_offset := pyOrNat e.offset 0,
         reason := "SyntaxError: " ++ e.msg }]
  ∧ (∃ pre : String, ("SyntaxError: " ++ e.msg) = pre ++ e.msg)
  ∧ (∀ rest : List SourceFile,
      scan p L F (f :: rest) = violations_for_file p L F f ++ scan p L F rest) := by
  refine ⟨?_, ⟨"SyntaxError: ", rfl⟩, fun rest => rfl⟩
  unfold violations_for_file
  rw [if_neg (not_or.mpr ⟨h1, h2⟩), hp]

/-- A concrete `domain` file that fails to parse, for the C4 witness. -/
def c4File : SourceFile :=
  { path := "r/domain/bad.py", relParts := ["domain", "bad.py"],
    parsed := .failed { lineno := some 7, offset := none, msg := "invalid syntax" } }

/-- Witness for C4: a concrete `domain` file with a syntax error yields
exactly its synthetic violation. -/
theorem C4_parse_failure_witness :
    violations_for_file "pkg" ["domain"] [] c4File =
      [{ file_path := "r/domain/bad.py", file_layer := "domain",
         imported_module := "(parse error)", imported_layer := "other",
         lineno := 7, col_offset := 0,
         reason := "SyntaxError: invalid syntax" }] := by
  have h := (C4_parse_failure "pkg" ["domain"] [] c4File
    { lineno := some 7, offset := none, msg := "invalid syntax" }
    (by decide) (by decide) rfl).1
  exact h.trans (by decide)

/-- C7: A discovered file whose top-level directory component under the root
is not a declared layer name never produces a violation, regardless of its
content (including unparseable content): its file layer is `other` and it
is skipped as a source. -/
theorem C7_undeclared_top_dir (p : String) (L : List String)
    (F : List (String × List String)) (f : SourceFile) (top : String)
    (rest : List String) (hrel : f.relParts = top :: rest) (hne : rest ≠ [])
    (htop : top ∉ L) :
    file_layer f.relParts L = "other" ∧ violations_for_file p L F f = [] := by
  have hlen : ¬ (top :: rest).length = 1 := by
    intro h
    simp only [List.length_cons, Nat.add_left_eq_self] at h
    exact hne (List.length_eq_zero.mp h)
  have hlayer : file_layer f.relParts L = "other" := by
    unfold file_layer
    rw [hrel, if_neg hlen]
    simp only [List.headD_cons]
    rw [if_neg htop]
  refine ⟨hlayer, ?_⟩
  unfold violations_for_file
  rw [if_pos (Or.inr hlayer)]

/-- A concrete file under an undeclared top-level directory, with
unparseable content, for the C7 witness. -/
def c7File : SourceFile :=
  { path := "r/util/x.py", relParts := ["util", "x.py"],
    parsed := .failed { lineno := some 1, offset := some 0, msg := "bad" } }

/-- Witness for C7: a file under the undeclared directory `util`, whose
content even fails to parse, produces nothing. -/
theorem C7_undeclared_top_dir_witness :
    file_layer c7File.relParts ["domain"] = "other"
  ∧ violations_for_file "pkg" ["domain"] defaultForbid c7File = [] :=
  C7_undeclared_top_dir "pkg" ["domain"] defaultForbid c7File "util" ["x.py"]
    rfl (by decide) (by decide)

/-- How many import references one walked statement yields: one per alias of
an `import` statement, one for a `from X import Y` with a module, none for
a module-less from-import. -/
def importCount : ImportStmt → Nat
  | .imp names _ _ => names.length
  | .impFrom (some _) _ _ => 1
  | .impFrom none _ _ => 0

/-- C9: The walk yields, per import statement: one reference per aliased
name of a (multi-name) `import` statement, carrying that statement's line
and column; a single reference keyed on the module path `X` for
`from X import Y`; and nothing for a from-import with no resolvable
module.  The total reference count is the sum of the per-statement
counts. -/
theorem C9_iter_imports_shape (stmts : List ImportStmt) :
    (∀ (names : List String) (lineno col : Nat) (rest : List ImportStmt),
      iter_imports (.imp names lineno col :: rest) =
        names.map (fun n => (n, lineno, col)) ++ iter_imports rest)
  ∧ (∀ (m : String) (lineno col : Nat) (rest : List ImportStmt),
      iter_imports (.impFrom (some m) lineno col :: rest) =
        (m, lineno, col) :: iter_imports rest)
  ∧ (∀ (lineno col : Nat) (rest : List ImportStmt),
      iter_imports (.impFrom none lineno col :: rest) = iter_imports rest)
  ∧ (iter_imports stmts).length = (stmts.map importCount).sum := by
  refine ⟨fun _ _ _ _ => rfl, fun _ _ _ _ => rfl, fun _ _ _ => rfl, ?_⟩
  induction stmts with
  | nil => rfl
  | cons s rest ih =>
    simp only [iter_imports, List.map_cons, List.flatten_cons,
      List.length_append, List.sum_cons] at ih ⊢
    rw [ih]
    cases s with
    | imp names lineno col => simp [importRefsOfStmt, importCount]
    | impFrom m lineno col =>
      cases m with
      | none => simp [importRefsOfStmt, importCount]
      | some mod => simp [importRefsOfStmt, importCount]

/-- C10: A `from <package> import <name>` statement records the module path
`<package>` itself, which classifies as `root`, so it never produces a
violation — even when `<name>` is a declared layer in the file layer's
forbidden set. -/
theorem C10_from_package_import (p : String) (L : List String)
    (F : List (String × List String)) (f : SourceFile) (l c : Nat)
    (hp : p ≠ "")
    (hparse : f.parsed = .tree [.impFrom (some p) l c]) :
    iter_imports [.impFrom (some p) l c] = [(p, l, c)]
  ∧ imported_layer p p L = "root"
  ∧ violations_for_file p L F f = [] := by
  have hroot : imported_layer p p L = "root" := by simp [imported_layer, hp]
  refine ⟨rfl, hroot, ?_⟩
  unfold violations_for_file
  by_cases h1 : file_layer f.relParts L = "root" ∨ file_layer f.relParts L = "other"
  · rw [if_pos h1]
  · rw [if_neg h1, hparse]
    have hnone : ruleViolation? f.path (file_layer f.relParts L) F p L (p, l, c) = none := by
      simp only [ruleViolation?]
      rw [if_pos (Or.inl hroot)]
    show List.filterMap _ [(p, l, c)] = []
    rw [List.filterMap_cons, hnone]
    rfl

/-- A concrete `domain` file holding only `from pkg import adaptor`, for the
C10 witness (`adaptor` is declared and in `domain`'s default forbidden
set, yet nothing is reported). -/
def c10File : SourceFile :=
  { path := "r/domain/a.py", relParts := ["domain", "a.py"],
    parsed := .tree [.impFrom (some "pkg") 1 0] }

/-- Witness for C10: the from-package import of a forbidden layer name goes
unreported under the default policy. -/
theorem C10_from_package_import_witness :
    iter_imports [.impFrom (some "pkg") 1 0] = [("pkg", 1, 0)]
  ∧ imported_layer "pkg" "pkg" ["domain", "dataset", "adaptor", "service"] = "root"
  ∧ violations_for_file "pkg" ["domain", "dataset", "adaptor", "service"]
      defaultForbid c10File = [] :=
  C10_from_package_import "pkg" ["domain", "dataset", "adaptor", "service"]
    defaultForbid c10File 1 0 (by decide) rfl

/-- The declared layers of the concrete C3 runs. -/
def c3Layers : List String := ["domain", "dataset", "adaptor", "service"]

/-- A `domain` file whose single import statement names two forbidden
modules: both resulting violations carry the statement's one (line,
column). -/
def c3File : SourceFile :=
  { path := "r/domain/a.py", relParts := ["domain", "a.py"],
    parsed := .tree [.imp ["pkg.adaptor.x", "pkg.service.y"] 1 0] }

/-- A second file with a distinct path, used to exhibit discovery-order
independence in the C3 witness. -/
def c3FileB : SourceFile :=
  { path := "r/adaptor/b.py", relParts := ["adaptor", "b.py"],
    parsed := .tree [.impFrom (some "pkg.service.z") 4 0] }

/-- The first violation of the C3 run (the `pkg.adaptor.x` alias). -/
def c3V1 : ImportViolation :=
  { file_path := "r/domain/a.py", file_layer := "domain",
    imported_module := "pkg.adaptor.x", imported_layer := "adaptor",
    lineno := 1, col_offset := 0,
    reason := "Forbidden import direction by configured layer rules." }

/-- The second violation of the C3 run (the `pkg.service.y` alias). -/
def c3V2 : ImportViolation :=
  { file_path := "r/domain/a.py", file_layer := "domain",
    imported_module := "pkg.service.y", imported_layer := "service",
    lineno := 1, col_offset := 0,
    reason := "Forbidden import direction by configured layer rules." }

/-- C3 counterexample: a run containing one `import pkg.adaptor.x,
pkg.service.y` statement in a `domain` file emits two distinct violations
with the same (file path, line, column) key, so the emitted listing is not
ordered by a strict total order on the violations — the key order is only
non-strict (ties are possible). -/
theorem C3_strict_order_counterexample :
    sortViolations (scan "pkg" c3Layers defaultForbid [c3File]) = [c3V1, c3V2]
  ∧ c3V1 ≠ c3V2
  ∧ vKey c3V1 = vKey c3V2
  ∧ ¬ keyLt (vKey c3V1) (vKey c3V2) := by
  refine ⟨by decide, by decide, by decide, by decide⟩

/-- C3 amended: the emitted violation listing is ordered ascending
(non-strictly) by the key (file path, line, column) — distinct violations
may tie on the key, in which case their deterministic within-file import
order decides — and, for discovered file lists with pairwise-distinct
paths, the emitted sequence is independent of the order in which the files
were discovered. -/
theorem C3_sorted_and_discovery_independent (p : String) (L : List String)
    (F : List (String × List String)) (files1 files2 : List SourceFile)
    (hperm : files1.Perm files2)
    (hdist : files1.Pairwise fun a b => a.path ≠ b.path) :
    (sortViolations (scan p L F files1)).Pairwise violOrd
  ∧ sortViolations (scan p L F files1) = sortViolations (scan p L F files2) :=
  ⟨sortViolations_sorted _, sortScan_perm p L F hperm hdist⟩

/-- Witness for the amended C3 at a concrete two-file run, discovered in the
two possible orders. -/
theorem C3_sorted_and_discovery_independent_witness :
    (sortViolations (scan "pkg" c3Layers defaultForbid [c3File, c3FileB])).Pairwise violOrd
  ∧ sortViolations (scan "pkg" c3Layers defaultForbid [c3File, c3FileB]) =
      sortViolations (scan "pkg" c3Layers defaultForbid [c3FileB, c3File]) :=
  C3_sorted_and_discovery_independent "pkg" c3Layers defaultForbid
    [c3File, c3FileB] [c3FileB, c3File] (List.Perm.swap c3FileB c3File [])
    (by decide)

theorem parse_csv_mem_ne_empty (value : String) :
    ∀ d ∈ parse_csv value, d ≠ "" := by
  intro d hd
  unfold parse_csv at hd
  obtain ⟨part, _, hpart⟩ := List.mem_filterMap.mp hd
  by_cases hs : pyStrip part = ""
  · rw [if_pos hs] at hpart
    exact absurd hpart (by simp)
  · rw [if_neg hs] at hpart
    rw [← Option.some.inj hpart]
    exact hs

/-- The invariant `_parse_forbid_entries` actually establishes on the
mapping: keys are non-empty (trimmed) names and destination sets are
non-empty sets of non-empty names. -/
def forbidWf (m : List (String × List String)) : Prop :=
  ∀ kv ∈ m, kv.1 ≠ "" ∧ kv.2 ≠ [] ∧ ∀ d ∈ kv.2, d ≠ ""

theorem addForbid_wf : ∀ (m : List (String × List String)) (src : String)
    (dsts : List String), forbidWf m → src ≠ "" → dsts ≠ [] →
    (∀ d ∈ dsts, d ≠ "") → forbidWf (addForbid m src dsts)
  | [], src, dsts, _, hsrc, hd1, hd2 => by
    intro kv hkv
    rw [List.mem_singleton.mp hkv]
    exact ⟨hsrc, hd1, hd2⟩
  | (k, v) :: rest, src, dsts, hm, hsrc, hd1, hd2 => by
    intro kv hkv
    unfold addForbid at hkv
    by_cases hk : k = src
    · rw [if_pos hk] at hkv
      rcases List.mem_cons.mp hkv with hkv | hmem
      · have hv := hm (k, v) (List.mem_cons_self _ _)
        rw [hkv]
        refine ⟨hv.1, ?_, ?_⟩
        · intro hnil
          exact hv.2.1 (List.append_eq_nil.mp hnil).1
        · intro d hd
          rcases List.mem_append.mp hd with hd | hd
          · exact hv.2.2 d hd
          · exact hd2 d hd
      · exact hm kv (List.mem_cons_of_mem _ hmem)
    · rw [if_neg hk] at hkv
      rcases List.mem_cons.mp hkv with hkv | hmem
      · rw [hkv]
        exact hm (k, v) (List.mem_cons_self _ _)
      · exact addForbid_wf rest src dsts
          (fun kv2 h2 => hm kv2 (List.mem_cons_of_mem _ h2)) hsrc hd1 hd2 kv hmem

theorem parse_forbid_entries_aux_wf :
    ∀ (entries : List String) (acc fb : List (String × List String)),
      forbidWf acc → parse_forbid_entries_aux acc entries = .ok fb → forbidWf fb
  | [], acc, fb, hacc, h => by
    unfold parse_forbid_entries_aux at h
    rw [← Except.ok.inj h]
    exact hacc
  | entry :: rest, acc, fb, hacc, h => by
    unfold parse_forbid_entries_aux at h
    by_cases h1 : entry.data.contains ':' = true
    · rw [if_pos h1] at h
      by_cases h2 : pyStrip (beforeColon entry) = ""
      · rw [if_pos h2] at h
        exact absurd h (by simp)
      · rw [if_neg h2] at h
        by_cases h3 : parse_csv (afterColon entry) = []
        · rw [if_pos h3] at h
          exact absurd h (by simp)
        · rw [if_neg h3] at h
          exact parse_forbid_entries_aux_wf rest _ fb
            (addForbid_wf acc _ _ hacc h2 h3 (parse_csv_mem_ne_empty _)) h
    · rw [if_neg h1] at h
      exact absurd h (by simp)

/-- C5 counterexample: the forbid entry `foo:bar` mentions no declared layer
name, yet construction accepts it and the run scans with the mapping
`{foo: {bar}}` — construction does not validate keys or destinations
against the declared layer-name set. -/
theorem C5_no_layer_validation_counterexample :
    parse_forbid_entries ["foo:bar"] = .ok [("foo", ["bar"])]
  ∧ "foo" ∉ parse_csv defaultLayersArg
  ∧ "bar" ∉ parse_csv defaultLayersArg
  ∧ runMain { root := "r", rootExistsAndIsDir := true, rootName := "pkg",
              packageNameArg := "", layersArg := defaultLayersArg,
              forbidArgs := ["foo:bar"] } []
      = .finished 0 ["OK: no layered-import violations found."] :=
  ⟨by decide, by decide, by decide, by decide⟩

/-- C5 amended: at construction time the forbidden mapping is validated for
format only — every key is a non-empty trimmed name and every destination
set is a non-empty set of non-empty names; membership in the declared
layer-name set is not checked. -/
theorem C5_format_validation (entries : List String)
    (fb : List (String × List String))
    (h : parse_forbid_entries entries = .ok fb) :
    ∀ kv ∈ fb, kv.1 ≠ "" ∧ kv.2 ≠ [] ∧ ∀ d ∈ kv.2, d ≠ "" :=
  parse_forbid_entries_aux_wf entries [] fb
    (fun kv hkv => absurd hkv (List.not_mem_nil kv)) h

/-- Witness for the amended C5 at the concrete entry list `[a:b]`. -/
theorem C5_format_validation_witness :
    (("a", ["b"]) : String × List String).1 ≠ ""
  ∧ (("a", ["b"]) : String × List String).2 ≠ []
  ∧ ∀ d ∈ (("a", ["b"]) : String × List String).2, d ≠ "" :=
  C5_format_validation ["a:b"] [("a", ["b"])] (by decide) ("a", ["b"]) (by decide)

theorem addForbid_ne_nil : ∀ (m : List (String × List String)) (src : String)
    (dsts : List String), addForbid m src dsts ≠ []
  | [], _, _ => by simp [addForbid]
  | (k, v) :: rest, src, dsts => by
    unfold addForbid
    by_cases hk : k = src
    · rw [if_pos hk]
      simp
    · rw [if_neg hk]
      simp

theorem parse_forbid_entries_aux_ne_nil :
    ∀ (entries : List String) (acc fb : List (String × List String)),
      acc ≠ [] → parse_forbid_entries_aux acc entries = .ok fb → fb ≠ []
  | [], acc, fb, hacc, h => by
    unfold parse_forbid_entries_aux at h
    rw [← Except.ok.inj h]
    exact hacc
  | entry :: rest, acc, fb, hacc, h => by
    unfold parse_forbid_entries_aux at h
    by_cases h1 : entry.data.contains ':' = true
    · rw [if_pos h1] at h
      by_cases h2 : pyStrip (beforeColon entry) = ""
      · rw [if_pos h2] at h
        exact absurd h (by simp)
      · rw [if_neg h2] at h
        by_cases h3 : parse_csv (afterColon entry) = []
        · rw [if_pos h3] at h
          exact absurd h (by simp)
        · rw [if_neg h3] at h
          exact parse_forbid_entries_aux_ne_nil rest _ fb (addForbid_ne_nil _ _ _) h
    · rw [if_neg h1] at h
      exact absurd h (by simp)

/-- C8: With no explicit forbid rules the scan uses exactly the default
mapping — `domain` forbids {dataset, adaptor, service}, `dataset` forbids
{adaptor, service}, `adaptor` forbids {dataset, service}, and no other
layer forbids anything — and the default is used only in that case: any
non-empty entry list that parses produces a non-empty mapping, which is
then used as is. -/
theorem C8_default_policy :
    parse_forbid_entries [] = .ok []
  ∧ effectiveForbid [] = defaultForbid
  ∧ defaultForbid.lookup "domain" = some ["dataset", "adaptor", "service"]
  ∧ defaultForbid.lookup "dataset" = some ["adaptor", "service"]
  ∧ defaultForbid.lookup "adaptor" = some ["dataset", "service"]
  ∧ (∀ s : String, s ≠ "domain" → s ≠ "dataset" → s ≠ "adaptor" →
      defaultForbid.lookup s = none)
  ∧ (∀ (entries : List String) (fb : List (String × List String)),
      parse_forbid_entries entries = .ok fb → entries ≠ [] →
        fb ≠ [] ∧ effectiveForbid fb = fb) := by
  refine ⟨rfl, by decide, by decide, by decide, by decide, ?_, ?_⟩
  · intro s h1 h2 h3
    simp [defaultForbid, List.lookup, beq_eq_false_iff_ne.mpr h1,
      beq_eq_false_iff_ne.mpr h2, beq_eq_false_iff_ne.mpr h3]
  · intro entries fb hok hne
    have hfb : fb ≠ [] := by
      cases entries with
      | nil => exact absurd rfl hne
      | cons e rest =>
        unfold parse_forbid_entries at hok
        unfold parse_forbid_entries_aux at hok
        by_cases h1 : e.data.contains ':' = true
        · rw [if_pos h1] at hok
          by_cases h2 : pyStrip (beforeColon e) = ""
          · rw [if_pos h2] at hok
            exact absurd hok (by simp)
          · rw [if_neg h2] at hok
            by_cases h3 : parse_csv (afterColon e) = []
            · rw [if_pos h3] at hok
              exact absurd hok (by simp)
            · rw [if_neg h3] at hok
              exact parse_forbid_entries_aux_ne_nil rest _ fb (addForbid_ne_nil _ _ _) hok
        · rw [if_neg h1] at hok
          exact absurd hok (by simp)
    refine ⟨hfb, ?_⟩
    unfold effectiveForbid
    rw [if_neg hfb]

/-- Witness for C8's only-in-that-case clause at the concrete entry
`custom:x`. -/
theorem C8_default_policy_witness :
    ([("custom", ["x"])] : List (String × List String)) ≠ []
  ∧ effectiveForbid [("custom", ["x"])] = [("custom", ["x"])] :=
  C8_default_policy.2.2.2.2.2.2 ["custom:x"] [("custom", ["x"])]
    (by decide) (by decide)

/-- C6 counterexample: both fatal configuration errors terminate with
status 1 — `raise SystemExit(message)` with a string exits CPython with
status 1, and the uncaught `ValueError` from a malformed forbid entry also
exits with status 1 — the same status as a completed scan that found
violations, contradicting "non-zero and not equal to 1". -/
theorem C6_exit_status_counterexample :
    runMain { root := "missing", rootExistsAndIsDir := false, rootName := "",
              packageNameArg := "", layersArg := defaultLayersArg,
              forbidArgs := [] } []
      = .configError 1 "--root must be an existing directory: missing"
  ∧ runMain { root := "r", rootExistsAndIsDir := true, rootName := "pkg",
              packageNameArg := "", layersArg := defaultLayersArg,
              forbidArgs := ["bad"] } []
      = .configError 1 "Invalid --forbid entry (expected from:to1,to2): bad" :=
  ⟨by decide, by decide⟩

/-- C6 amended: a fatal configuration error (root missing or not a
directory, or a malformed forbid entry) aborts before scanning any file —
the outcome is the same whatever files were discovered — emits a
descriptive message, and terminates with a non-zero status; but that
status is 1, the same as the violations-found exit, not a non-1 status. -/
theorem C6_config_errors_abort (args : Args) (files : List SourceFile) :
    (args.rootExistsAndIsDir = false →
        runMain args files =
          .configError 1 ("--root must be an existing directory: " ++ args.root)
      ∧ runMain args files = runMain args [])
  ∧ (∀ msg, args.rootExistsAndIsDir = true →
      parse_forbid_entries args.forbidArgs = .error msg →
        runMain args files = .configError 1 msg
      ∧ runMain args files = runMain args [])
  ∧ (∀ s m, runMain args files = .configError s m → s = 1 ∧ s ≠ 0) := by
  refine ⟨?_, ?_, ?_⟩
  · intro hr
    constructor
    · unfold runMain
      rw [if_pos hr]
      rfl
    · unfold runMain
      rw [if_pos hr, if_pos hr]
  · intro msg hr herr
    have hcond : ¬ args.rootExistsAndIsDir = false := by simp [hr]
    constructor
    · unfold runMain
      rw [if_neg hcond, herr]
      rfl
    · unfold runMain
      rw [if_neg hcond, if_neg hcond, herr]
  · intro s m h
    unfold runMain at h
    by_cases hr : args.rootExistsAndIsDir = false
    · rw [if_pos hr] at h
      injection h with h1 _
      have hs : s = 1 := h1.symm.trans rfl
      exact ⟨hs, by omega⟩
    · rw [if_neg hr] at h
      cases hpe : parse_forbid_entries args.forbidArgs with
      | error msg2 =>
        simp only [hpe] at h
        injection h with h1 _
        have hs : s = 1 := h1.symm.trans rfl
        exact ⟨hs, by omega⟩
      | ok fb =>
        simp only [hpe] at h
        unfold reportPhase at h
        by_cases hv : scan (pyPackageName args) (parse_csv args.layersArg)
            (effectiveForbid fb) files = []
        · rw [if_pos hv] at h
          exact absurd h (by simp)
        · rw [if_neg hv] at h
          exact absurd h (by simp)

/-- Arguments with a missing root directory, for the C6 witness. -/
def c6Args : Args :=
  { root := "missing", rootExistsAndIsDir := false, rootName := "",
    packageNameArg := "", layersArg := defaultLayersArg, forbidArgs := [] }

/-- A discovered file for the C6 witness, never scanned. -/
def c6File : SourceFile :=
  { path := "missing/domain/a.py", relParts := ["domain", "a.py"],
    parsed := .tree [.impFrom (some "pkg.adaptor.b") 1 0] }

/-- Witness for the amended C6: with a missing root the run ends in the
status-1 configuration error and ignores the discovered files. -/
theorem C6_config_errors_abort_witness :
    runMain c6Args [c6File] =
      .configError 1 ("--root must be an existing directory: " ++ c6Args.root)
  ∧ runMain c6Args [c6File] = runMain c6Args [] :=
  (C6_config_errors_abort c6Args [c6File]).1 rfl
